import Mathlib

/-
Verification development for the dairi process manager
(src/src/process_manager.rs).

The Rust code is shallowly embedded: pure string manipulation becomes
recursive functions on `String.data` (lists of characters), the async
child-interaction loop becomes a recursion over an explicit trace of
multiplexer events, and the mutable process table becomes explicit
state passing of an association list.  External effects (the OS process
snapshot, the outcome of `Command::spawn`, the regex engine) enter as
explicit parameters.
-/

namespace Dairi

/-! ## Error type (process_manager.rs lines 25-56) -/

/-- The error enum `ProcessManagerError` of process_manager.rs.
Payloads that carry foreign error values (`regex::Error`,
`tokio::time::error::Elapsed`, `std::io::Error`) are dropped; only the
constructor identity matters to the control flow. -/
inductive PMError where
  | CmdTableNotInitialize
  | CmdNotFound (name : String)
  | FailedToGetChildProcessStdin (name : String)
  | RegexError
  | Timeout
  | FailedToAddProcessTable (name : String)
  | FailedToGetChildProcessStdout (name : String)
  | FailedToGetChildProcessStderr (name : String)
  | EmptyInputNotAllowed
  | IOError
  deriving DecidableEq

deriving instance DecidableEq for Except

/-! ## String primitives

The Rust code uses `str::split("\n")`, `Vec::join("\n")`,
`str::replace("\n", rep)` and `format!("{}\n", _)`.  They are embedded
as structurally recursive functions on the character list of a string
so that every definition evaluates by kernel reduction. -/

/-- Model of Rust `str::split("\n")` on the character list: splitting on
the single newline character.  `[] ↦ [[]]`, and a trailing newline
produces a final empty piece, exactly as in Rust. -/
def splitNewlineList : List Char → List (List Char)
  | [] => [[]]
  | c :: rest =>
    let r := splitNewlineList rest
    if c = '\n' then [] :: r
    else
      match r with
      | [] => [[c]]
      | h :: t => (c :: h) :: t

/-- Model of Rust `str::split("\n")` collected to a vector of strings. -/
def splitNewline (s : String) : List String :=
  (splitNewlineList s.data).map String.mk

/-- Model of Rust `Vec::<String>::join("\n")`. -/
def joinNewline : List String → String
  | [] => ""
  | [s] => s
  | s :: rest => s ++ "\n" ++ joinNewline rest

/-- Model of Rust `str::replace("\n", rep)` on the character list. -/
def replaceNewlineList (rep : List Char) : List Char → List Char
  | [] => []
  | c :: rest =>
    if c = '\n' then rep ++ replaceNewlineList rep rest
    else c :: replaceNewlineList rep rest

/-- Model of Rust `str::replace("\n", rep)`. -/
def replaceNewline (s rep : String) : String :=
  String.mk (replaceNewlineList rep.data s.data)

/-- Model of Rust `str::is_empty`. -/
def strIsEmpty (s : String) : Bool :=
  s.data.isEmpty

/-! ## Regex models

The regex crate is an external dependency; the three patterns the
repository uses are modelled concretely, and the compilation step
`Regex::new` for the caller-supplied truncation pattern is a parameter
(`regexNew`) of the embedding. -/

/-- Model of the regex crate's `\s` character class (Unicode
White_Space). -/
def isRustWhitespace (c : Char) : Bool :=
  c == ' ' || c == '\t' || c == '\n' || c == '\x0b' || c == '\x0c' ||
  c == '\r' || c == '\u0085' || c == '\u00a0' || c == '\u1680' ||
  c == '\u2000' || c == '\u2001' || c == '\u2002' || c == '\u2003' ||
  c == '\u2004' || c == '\u2005' || c == '\u2006' || c == '\u2007' ||
  c == '\u2008' || c == '\u2009' || c == '\u200a' || c == '\u2028' ||
  c == '\u2029' || c == '\u202f' || c == '\u205f' || c == '\u3000'

/-- Model of `Regex::new(r"^[\s\t]+$").is_match(line)` from
`arrange_input` (process_manager.rs line 243): the whole line is one or
more characters of the class `[\s\t]`. -/
def emptyLineIsMatch (s : String) : Bool :=
  !(s.data.isEmpty) && s.data.all fun c => isRustWhitespace c || c == '\t'

/-- Model of `Regex::new(r"^[\s\n]+$").is_match(input)` from
`pass_input_to_process` (process_manager.rs line 284): the whole string
is one or more characters of the class `[\s\n]`. -/
def emptyInputIsMatch (s : String) : Bool :=
  !(s.data.isEmpty) && s.data.all fun c => isRustWhitespace c || c == '\n'

/-- Helper for the model of the compiled pattern `#.*`: copy characters,
and after a `#` drop everything up to (excluding) the next newline,
since `.` does not match a newline. -/
def hashDotStarReplaceAllAux : Bool → List Char → List Char
  | _, [] => []
  | true, c :: rest =>
    if c = '\n' then c :: hashDotStarReplaceAllAux false rest
    else hashDotStarReplaceAllAux true rest
  | false, c :: rest =>
    if c = '#' then hashDotStarReplaceAllAux true rest
    else c :: hashDotStarReplaceAllAux false rest

/-- Model of `Regex::new("#.*").replace_all(s, "")` from the regex
crate: every match of `#.*` (a `#` and the rest of its line) is
replaced by the empty string. -/
def hashDotStarReplaceAll (s : String) : String :=
  String.mk (hashDotStarReplaceAllAux false s.data)

/-- A regex engine instance that compiles exactly the pattern `#.*`
(the pattern the repository's default configuration and tests use) to
its model, and reports a compile error for every other pattern. -/
def regexNewHash : String → Except PMError (String → String) :=
  fun p => if p = "#.*" then .ok hashDotStarReplaceAll else .error .RegexError

/-- A regex engine instance that rejects every pattern; usable wherever
no truncation pattern is set, since compilation is then never invoked. -/
def regexNewNone : String → Except PMError (String → String) :=
  fun _ => .error .RegexError

/-! ## Input shaping (process_manager.rs lines 227-262, `arrange_input`) -/

/-- The input shaper `arrange_input` of process_manager.rs.  The four
steps mirror the source in order: line truncation by the compiled
`truncate_line_regex` (compilation via the engine parameter `regexNew`,
its failure propagated as in the `?` of the source), empty-line removal,
newline joining, trailing newline. -/
def arrange_input (regexNew : String → Except PMError (String → String))
    (input : String) (auto_trailing_newline : Bool)
    (join_new_lines_with : Option String)
    (truncate_line_regex : Option String)
    (remove_empty_line : Bool) : Except PMError String := do
  let input1 ←
    match truncate_line_regex with
    | some pat => do
      let re ← regexNew pat
      pure (joinNewline ((splitNewline input).map fun each => re each))
    | none => pure input
  let input2 :=
    if remove_empty_line then
      joinNewline ((splitNewline input1).filter fun each =>
        !(strIsEmpty each) && !(emptyLineIsMatch each))
    else input1
  let input3 :=
    match join_new_lines_with with
    | some rep => replaceNewline input2 rep
    | none => input2
  let input4 := if auto_trailing_newline then input3 ++ "\n" else input3
  pure input4

/-! ## Command data model (process_manager.rs lines 60-111, config defaults) -/

/-- The per-command spec `Cmd` of process_manager.rs (lines 66-77). -/
structure Cmd where
  name : String
  cmd : String
  output_size : Nat
  auto_trailing_newline : Bool
  join_input_newline_with : Option String
  truncate_line_regex : Option String
  remove_empty_line : Bool
  no_empty_input : Bool
  timeout_sec : Option Nat
  wait_output_timeout_milli_sec : Option Nat
  deriving DecidableEq

/-- `DEFAULT_CMD_TIMEOUT_SEC` (process_manager.rs line 22). -/
def DEFAULT_CMD_TIMEOUT_SEC : Nat := 30

/-- `DEFAULT_WAIT_OUTPUT_FINISH_SEC` (process_manager.rs line 23); used
as a value in milliseconds at line 319 despite its name. -/
def DEFAULT_WAIT_OUTPUT_FINISH_SEC : Nat := 2

/-- The period of `check_output_finished_interval`
(process_manager.rs line 322): a tick every 100 milliseconds. -/
def tickIntervalMilli : Nat := 100

/-- A child handle (`tokio::process::Child`): its OS pid if still known,
and which of the three standard pipes were attached. -/
structure Child where
  id : Option Nat
  has_stdin : Bool
  has_stdout : Bool
  has_stderr : Bool
  deriving DecidableEq

/-- `RunningProcess` of process_manager.rs (lines 60-63). -/
structure RunningProcess where
  running_cmd : Cmd
  child : Child
  deriving DecidableEq

/-! ## Tables

`CmdTable` and `ProcessTable` are `HashMap`s; they are embedded as
association lists in which an insert replaces any previous binding of
the same key. -/

/-- Lookup in an association-list table (`HashMap::get`). -/
def tableLookup {V : Type} : List (String × V) → String → Option V
  | [], _ => none
  | (k2, v) :: rest, k => if k2 = k then some v else tableLookup rest k

/-- Insert in an association-list table (`HashMap::insert`): the new
binding replaces any previous binding of the key. -/
def tableInsert {V : Type} (t : List (String × V)) (k : String) (v : V) :
    List (String × V) :=
  (k, v) :: t.filter fun p => !(p.1 == k)

/-- `get_cmd_from_table` (process_manager.rs lines 119-127).  The
`OnceCell` content of `CMD_TABLE` is the `Option` parameter: `none`
models the cell not yet initialized. -/
def get_cmd_from_table (cmd_table : Option (List (String × Cmd)))
    (cmd_name : String) : Except PMError Cmd :=
  match cmd_table with
  | none => .error .CmdTableNotInitialize
  | some t =>
    match tableLookup t cmd_name with
    | none => .error (.CmdNotFound cmd_name)
    | some c => .ok c

/-- `add_to_process_table` (process_manager.rs lines 133-140).  Note
that the key used is `running_cmd.cmd` — the executable field — exactly
as in the source (line 137). -/
def add_to_process_table (process_table : List (String × RunningProcess))
    (running_process : RunningProcess) : List (String × RunningProcess) :=
  tableInsert process_table running_process.running_cmd.cmd running_process

/-! ## Health probe (process_manager.rs lines 142-150) -/

/-- `sysinfo::ProcessStatus`, the OS view of a process state. -/
inductive ProcessStatus where
  | Idle
  | Run
  | Sleep
  | Stop
  | Zombie
  | Tracing
  | Dead
  | Wakekill
  | Waking
  | Parked
  | LockBlocked
  | Unknown (code : Nat)
  deriving DecidableEq

/-- `is_health_process` (process_manager.rs lines 142-150): a process is
healthy in the states `Run`, `Idle`, `Sleep`, `Tracing`, and unhealthy
in every other state. -/
def is_health_process : ProcessStatus → Bool
  | .Run => true
  | .Idle => true
  | .Sleep => true
  | .Tracing => true
  | _ => false

/-! ## The child-interaction loop (process_manager.rs lines 310-385)

The `select!` loop races a stdout read, a stderr read and a 100 ms
tick.  A run of the loop is embedded as a recursion over the trace of
branch outcomes the multiplexer delivered, each stamped with the
instant (milliseconds from the start of the request) at which it was
delivered. -/

/-- One delivered branch outcome of the `select!` loop: a successful
read from stdout or stderr of `bytes`, a read error on either pipe, or
a tick of `check_output_finished_interval`. -/
inductive Event where
  | stdoutRead (bytes : List Nat) (t : Nat)
  | stderrRead (bytes : List Nat) (t : Nat)
  | stdoutReadErr (t : Nat)
  | stderrReadErr (t : Nat)
  | tick (t : Nat)
  deriving DecidableEq

/-- Whether an event is a tick of the 100 ms interval. -/
def Event.isTick : Event → Bool
  | .tick _ => true
  | _ => false

/-- The loop-local mutable state: `latest_read_at` (line 316) and the
accumulator `result` (line 317). -/
structure LoopState where
  latest_read_at : Option Nat
  result : List Nat
  deriving DecidableEq

/-- Outcome of running the loop on a trace: `break` at time `t` with
the accumulator (line 377), an I/O error at time `t` (lines 331, 354),
or still running after the whole trace. -/
inductive LoopRes where
  | done (t : Nat) (out : List Nat)
  | ioError (t : Nat)
  | pending (st : LoopState)
  deriving DecidableEq

/-- The body of the `select!` loop (process_manager.rs lines 325-383),
run over a trace of events.  On a successful read the bytes are
appended to the accumulator and `latest_read_at` is set to the current
instant; on a read error the loop fails; on a tick the loop breaks
when `latest_read_at` is set and at least `quiet` milliseconds have
passed since it (`duration_since` saturates at zero, as `Nat`
subtraction does). -/
def interactionLoop (quiet : Nat) (st : LoopState) : List Event → LoopRes
  | [] => .pending st
  | e :: rest =>
    match e with
    | .stdoutRead bytes t =>
      interactionLoop quiet ⟨some t, st.result ++ bytes⟩ rest
    | .stderrRead bytes t =>
      interactionLoop quiet ⟨some t, st.result ++ bytes⟩ rest
    | .stdoutReadErr t => .ioError t
    | .stderrReadErr t => .ioError t
    | .tick t =>
      match st.latest_read_at with
      | some r =>
        if quiet ≤ t - r then .done t st.result
        else interactionLoop quiet st rest
      | none => interactionLoop quiet st rest

/-- When a run of `pass_input_to_process` resolves, and with what:
`at t r` means the future completed at instant `t` (milliseconds from
its start) with result `r`; `never` means the loop was still awaiting
events and the future never completed on its own. -/
inductive Completion where
  | at (t : Nat) (r : Except PMError (List Nat))
  | never (st : LoopState)
  deriving DecidableEq

/-- Mapping of a loop outcome to the completion of the enclosing
future: a break returns the accumulator (line 384), a read error
returns `IOError`, an exhausted trace leaves the future pending. -/
def loopCompletion : LoopRes → Completion
  | .done t out => .at t (.ok out)
  | .ioError t => .at t (.error .IOError)
  | .pending st => .never st

/-- The `tokio::time::timeout` wrapper used at lines 170 and 203: the
future's result if it completed within `deadlineMilli` milliseconds,
`Timeout` if the deadline fired before it completed. -/
def withTimeout (deadlineMilli : Nat) : Completion → Except PMError (List Nat)
  | .at t r => if deadlineMilli < t then .error .Timeout else r
  | .never _ => .error .Timeout

/-- `pass_input_to_process` (process_manager.rs lines 264-385).  In
source order: shape the input; with `no_empty_input`, reject an empty
or all-`[\s\n]` shaped input; obtain the stdin, stdout and stderr
pipes; write the shaped bytes to stdin; run the `select!` loop.  The
returned pair is the bytes written to stdin (if the write was reached)
and the completion of the future.  Failures before the loop complete
immediately (instant 0). -/
def pass_input_to_process (regexNew : String → Except PMError (String → String))
    (name : String) (child : Child) (input : String) (max_output_size : Nat)
    (auto_trailing_newline : Bool) (join_input_new_lines_with : Option String)
    (truncate_line_regex : Option String) (remove_empty_line : Bool)
    (no_empty_input : Bool) (wait_output_timeout_milli_sec : Option Nat)
    (events : List Event) : Option String × Completion :=
  match arrange_input regexNew input auto_trailing_newline
      join_input_new_lines_with truncate_line_regex remove_empty_line with
  | .error e => (none, .at 0 (.error e))
  | .ok input =>
    if no_empty_input && (strIsEmpty input || emptyInputIsMatch input) then
      (none, .at 0 (.error .EmptyInputNotAllowed))
    else if !child.has_stdin then
      (none, .at 0 (.error (.FailedToGetChildProcessStdin name)))
    else if !child.has_stdout then
      (none, .at 0 (.error (.FailedToGetChildProcessStdout name)))
    else if !child.has_stderr then
      (none, .at 0 (.error (.FailedToGetChildProcessStderr name)))
    else
      (some input,
        loopCompletion
          (interactionLoop
            (wait_output_timeout_milli_sec.getD DEFAULT_WAIT_OUTPUT_FINISH_SEC)
            ⟨none, []⟩ events))

/-! ## Spawning and the per-request orchestrator
(process_manager.rs lines 152-225, 387-401) -/

/-- `spawn_process` (process_manager.rs lines 387-401): resolve the
spec from the command table, then ask the OS to spawn
`cmd.cmd` with three piped streams.  The OS outcome is the parameter
`spawnOutcome`: `some child` on success, `none` for an `io::Error`, which
the `?` at line 393 converts to `IOError`. -/
def spawn_process (cmd_table : Option (List (String × Cmd)))
    (spawnOutcome : Option Child) (name : String) : Except PMError RunningProcess :=
  match get_cmd_from_table cmd_table name with
  | .error e => .error e
  | .ok cmd =>
    match spawnOutcome with
    | none => .error .IOError
    | some child => .ok ⟨cmd, child⟩

/-- The `timeout(Duration::from_secs(timeout_sec), pass_input_to_process(..))`
call shape shared by the two call sites in `run_cmd` (lines 166-185 and
201-218): the per-command overall deadline is
`timeout_sec.unwrap_or(DEFAULT_CMD_TIMEOUT_SEC)` seconds, and every
argument of `pass_input_to_process` is drawn from the running process's
spec. -/
def runInteraction (regexNew : String → Except PMError (String → String))
    (name : String) (p : RunningProcess) (input : String)
    (output_size : Option Nat) (events : List Event) :
    Except PMError (List Nat) :=
  withTimeout ((p.running_cmd.timeout_sec.getD DEFAULT_CMD_TIMEOUT_SEC) * 1000)
    (pass_input_to_process regexNew name p.child input
      (output_size.getD p.running_cmd.output_size)
      p.running_cmd.auto_trailing_newline
      p.running_cmd.join_input_newline_with
      p.running_cmd.truncate_line_regex
      p.running_cmd.remove_empty_line
      p.running_cmd.no_empty_input
      p.running_cmd.wait_output_timeout_milli_sec
      events).2

/-- The spawn path of `run_cmd` (process_manager.rs lines 194-224):
spawn, insert into the process table via `add_to_process_table`,
re-borrow the entry under `name`, and run the interaction under the
deadline; a failed re-borrow is `FailedToAddProcessTable`. -/
def runCmdSpawnPath (regexNew : String → Except PMError (String → String))
    (cmd_table : Option (List (String × Cmd)))
    (table : List (String × RunningProcess)) (spawnOutcome : Option Child)
    (name : String) (input : String) (output_size : Option Nat)
    (events : List Event) :
    Except PMError (List Nat) × List (String × RunningProcess) :=
  match spawn_process cmd_table spawnOutcome name with
  | .error e => (.error e, table)
  | .ok spawned_process =>
    let table2 := add_to_process_table table spawned_process
    match tableLookup table2 name with
    | some p => (runInteraction regexNew name p input output_size events, table2)
    | none => (.error (.FailedToAddProcessTable name), table2)

/-- `run_cmd` (process_manager.rs lines 152-225).  The lock acquisition
is implicit (the table is passed in and returned); the OS process
snapshot is the parameter `os`.  Returned are the request result, the
process table after the request, and the list of pids the zombie-kill
branch (line 188) signalled. -/
def runCmd (regexNew : String → Except PMError (String → String))
    (cmd_table : Option (List (String × Cmd)))
    (table : List (String × RunningProcess))
    (os : Nat → Option ProcessStatus) (spawnOutcome : Option Child)
    (name : String) (input : String) (output_size : Option Nat)
    (events : List Event) :
    Except PMError (List Nat) × List (String × RunningProcess) × List Nat :=
  match tableLookup table name with
  | some running_process =>
    match running_process.child.id with
    | some pid =>
      match os pid with
      | some os_process =>
        if is_health_process os_process then
          (runInteraction regexNew name running_process input output_size events,
            table, [])
        else
          let r := runCmdSpawnPath regexNew cmd_table table spawnOutcome name
            input output_size events
          (r.1, r.2, [pid])
      | none =>
        let r := runCmdSpawnPath regexNew cmd_table table spawnOutcome name
          input output_size events
        (r.1, r.2, [])
    | none =>
      let r := runCmdSpawnPath regexNew cmd_table table spawnOutcome name
        input output_size events
      (r.1, r.2, [])
  | none =>
    let r := runCmdSpawnPath regexNew cmd_table table spawnOutcome name
      input output_size events
    (r.1, r.2, [])

/-! ## The four shaping steps as standalone functions

Spec §4.2 presents the shaper as four conditional steps applied in a
fixed order.  Each step is stated here as a standalone function, to be
compared against `arrange_input` as translated from the source. -/

/-- Step 1 of §4.2, line truncation: split on the newline, globally
replace every match of the compiled pattern by the empty string,
rejoin. -/
def truncStep (regexNew : String → Except PMError (String → String))
    (truncate_line_regex : Option String) (input : String) :
    Except PMError String :=
  match truncate_line_regex with
  | none => .ok input
  | some pat =>
    (regexNew pat).map fun re => joinNewline ((splitNewline input).map re)

/-- Step 2 of §4.2, empty-line removal: drop every line that is empty
or all-whitespace. -/
def removeStep (remove_empty_line : Bool) (s : String) : String :=
  if remove_empty_line then
    joinNewline ((splitNewline s).filter fun each =>
      !(strIsEmpty each) && !(emptyLineIsMatch each))
  else s

/-- Step 3 of §4.2, newline joining: replace every newline by the
configured separator. -/
def joinStep (join_new_lines_with : Option String) (s : String) : String :=
  match join_new_lines_with with
  | some rep => replaceNewline s rep
  | none => s

/-- Step 4 of §4.2, trailing newline. -/
def trailStep (auto_trailing_newline : Bool) (s : String) : String :=
  if auto_trailing_newline then s ++ "\n" else s

/-- Shaping with the identity spec (no trailing newline, no joining, no
truncation pattern, no empty-line removal) returns the input unchanged
and never fails. -/
theorem arrange_input_id_spec (regexNew : String → Except PMError (String → String))
    (s : String) : arrange_input regexNew s false none none false = .ok s := rfl

/-! ## Claims -/

/-- Claim C2: the input shaper applies its four steps in the fixed
order truncation, empty-line removal, newline joining, trailing
newline; and on the S2 spec (`auto_trailing_newline`, join with `;`,
truncate `#.*`, no empty-line removal) the given five-line input
shapes to exactly `";                ;                aaa ; ;;bbb\n"`. -/
theorem arrange_input_step_order_and_s2 :
    (∀ (regexNew : String → Except PMError (String → String))
        (input : String) (a : Bool) (j : Option String) (tr : Option String)
        (rm : Bool),
      arrange_input regexNew input a j tr rm
        = (truncStep regexNew tr input).map fun s =>
            trailStep a (joinStep j (removeStep rm s))) ∧
    arrange_input regexNewHash
        "\n                # sss\n                aaa # ddd\n \n\nbbb"
        true (some ";") (some "#.*") false
      = .ok ";                ;                aaa ; ;;bbb\n" := by
  constructor
  · intro regexNew input a j tr rm
    cases tr with
    | none => rfl
    | some pat =>
      cases h : regexNew pat with
      | error e =>
        simp [arrange_input, truncStep, h, Except.map, Except.bind, Bind.bind]
      | ok re =>
        simp [arrange_input, truncStep, h, Except.map, Except.bind, Bind.bind,
          removeStep, joinStep, trailStep, pure, Except.pure]
  · decide

/-- Claim C6 counterexample: the claimed equation
`shape(shape(i, s), s') = shape(i, s')` (with `s'` the identity spec)
fails at `s = {auto_trailing_newline := true}` and `i = ""`: the left
side is `"\n"`, the right side `""`. -/
theorem shape_identity_claim_false :
    ¬((arrange_input regexNewNone "" true none none false).bind
        (fun x => arrange_input regexNewNone x false none none false)
      = arrange_input regexNewNone "" false none none false) := by
  decide

/-- Claim C6 (amended): re-shaping the output of any shaping with the
identity spec `s'` (no trailing newline, no joining, no truncation
pattern, no empty-line removal) changes nothing:
`shape(shape(i, s), s') = shape(i, s)` for every spec `s`, engine and
input. -/
theorem shape_then_identity_noop
    (regexNew regexNew2 : String → Except PMError (String → String))
    (input : String) (a : Bool) (j : Option String) (tr : Option String)
    (rm : Bool) :
    (arrange_input regexNew input a j tr rm).bind
        (fun x => arrange_input regexNew2 x false none none false)
      = arrange_input regexNew input a j tr rm := by
  cases h : arrange_input regexNew input a j tr rm with
  | error e => rfl
  | ok s => simp [Except.bind, arrange_input_id_spec]

/-- Claim C7: with `remove_empty_line` set, shaping splits on the
newline and drops every line that is empty or matches the all-blank
pattern, rejoining the rest with newlines; and on the S3 spec (S2 plus
`remove_empty_line`) the same input shapes to exactly
`"                aaa ;bbb\n"`. -/
theorem arrange_input_remove_empty_and_s3 :
    (∀ (regexNew : String → Except PMError (String → String)) (input : String),
      arrange_input regexNew input false none none true
        = .ok (joinNewline ((splitNewline input).filter fun each =>
            !(strIsEmpty each) && !(emptyLineIsMatch each)))) ∧
    arrange_input regexNewHash
        "\n                # sss\n                aaa # ddd\n \n\nbbb"
        true (some ";") (some "#.*") true
      = .ok "                aaa ;bbb\n" := by
  constructor
  · intro regexNew input
    rfl
  · decide

/-- Claim C5: with `no_empty_input` set and the input shaping to
`shaped`, the request is rejected with `EmptyInputNotAllowed` exactly
when `shaped` is empty or matches `^[\s\n]+$`; a shaped input holding
any character outside that class is never rejected for emptiness; and
on rejection nothing is written to the child's stdin. -/
theorem empty_input_rejection
    (regexNew : String → Except PMError (String → String))
    (name : String) (child : Child) (input : String) (sz : Nat) (a : Bool)
    (j tr : Option String) (rm : Bool) (w : Option Nat)
    (events : List Event) (shaped : String)
    (hsh : arrange_input regexNew input a j tr rm = .ok shaped) :
    ((∃ t, (pass_input_to_process regexNew name child input sz a j tr rm
        true w events).2 = .at t (.error .EmptyInputNotAllowed))
      ↔ (strIsEmpty shaped || emptyInputIsMatch shaped) = true) ∧
    (∀ c, c ∈ shaped.data → (isRustWhitespace c || c == '\n') = false →
      ∀ t, (pass_input_to_process regexNew name child input sz a j tr rm
        true w events).2 ≠ .at t (.error .EmptyInputNotAllowed)) ∧
    ((pass_input_to_process regexNew name child input sz a j tr rm
        true w events).2 = .at 0 (.error .EmptyInputNotAllowed) →
      (pass_input_to_process regexNew name child input sz a j tr rm
        true w events).1 = none) := by
  have hclass : ∀ c, c ∈ shaped.data → (isRustWhitespace c || c == '\n') = false →
      (strIsEmpty shaped || emptyInputIsMatch shaped) = false := by
    intro c hc hcf
    have h1 : strIsEmpty shaped = false := by
      cases hd : shaped.data with
      | nil => rw [hd] at hc; cases hc
      | cons x xs => simp [strIsEmpty, hd]
    have h2 : emptyInputIsMatch shaped = false := by
      have hall : (shaped.data.all fun c => isRustWhitespace c || c == '\n')
          = false := by
        rw [List.all_eq_false]
        exact ⟨c, hc, by simp [hcf]⟩
      simp [emptyInputIsMatch, hall]
    simp [h1, h2]
  by_cases hcond : (strIsEmpty shaped || emptyInputIsMatch shaped) = true
  · have hP : pass_input_to_process regexNew name child input sz a j tr rm
        true w events = (none, .at 0 (.error .EmptyInputNotAllowed)) := by
      simp [pass_input_to_process, hsh, hcond]
    refine ⟨?_, ?_, ?_⟩
    · rw [hP]
      exact ⟨fun _ => hcond, fun _ => ⟨0, rfl⟩⟩
    · intro c hc hcf t
      have := hclass c hc hcf
      rw [hcond] at this
      cases this
    · intro _; rw [hP]
  · have hcond2 : (strIsEmpty shaped || emptyInputIsMatch shaped) = false := by
      cases h : (strIsEmpty shaped || emptyInputIsMatch shaped) with
      | true => exact absurd h hcond
      | false => rfl
    have hnone : ∀ t, (pass_input_to_process regexNew name child input sz a j tr rm
        true w events).2 ≠ .at t (.error .EmptyInputNotAllowed) := by
      intro t
      simp only [pass_input_to_process, hsh, hcond2]
      cases hin : child.has_stdin <;> cases hout : child.has_stdout <;>
        cases herr : child.has_stderr <;>
        simp <;>
        cases hlr : interactionLoop (w.getD DEFAULT_WAIT_OUTPUT_FINISH_SEC)
            ⟨none, []⟩ events <;>
        simp [loopCompletion]
    refine ⟨?_, ?_, ?_⟩
    · constructor
      · intro ⟨t, ht⟩; exact absurd ht (hnone t)
      · intro h; rw [h] at hcond2; cases hcond2
    · intro _ _ _ t; exact hnone t
    · intro h; exact absurd h (hnone 0)

/-- Closed instance of claim C5: with the identity shaping spec and the
all-blank input, the request is rejected and nothing reaches stdin. -/
theorem empty_input_rejection_witness :
    (pass_input_to_process regexNewNone "jl" ⟨some 1, true, true, true⟩
      " \n " 4096 false none none false true none []).1 = none :=
  (empty_input_rejection regexNewNone "jl" ⟨some 1, true, true, true⟩
    " \n " 4096 false none none false none [] " \n " rfl).2.2 (by decide)

/-- Claim C4: a successful read from stdout or stderr appends the bytes
to the accumulator and records the read instant; a tick of the 100 ms
interval breaks the loop exactly when a read instant is recorded and at
least the quiet period has elapsed since it, returning the accumulator
as the successful result; and the quiet period is the per-command
`wait_output_timeout_milli_sec` with default
`DEFAULT_WAIT_OUTPUT_FINISH_SEC = 2` milliseconds. -/
theorem interaction_loop_reads_and_quiet_tick :
    (∀ (quiet : Nat) (st : LoopState) (bytes : List Nat) (t : Nat)
        (rest : List Event),
      interactionLoop quiet st (.stdoutRead bytes t :: rest)
        = interactionLoop quiet ⟨some t, st.result ++ bytes⟩ rest) ∧
    (∀ (quiet : Nat) (st : LoopState) (bytes : List Nat) (t : Nat)
        (rest : List Event),
      interactionLoop quiet st (.stderrRead bytes t :: rest)
        = interactionLoop quiet ⟨some t, st.result ++ bytes⟩ rest) ∧
    (∀ (quiet r : Nat) (out : List Nat) (t : Nat) (rest : List Event),
      quiet ≤ t - r →
      interactionLoop quiet ⟨some r, out⟩ (.tick t :: rest) = .done t out) ∧
    (∀ (quiet r : Nat) (out : List Nat) (t : Nat) (rest : List Event),
      ¬(quiet ≤ t - r) →
      interactionLoop quiet ⟨some r, out⟩ (.tick t :: rest)
        = interactionLoop quiet ⟨some r, out⟩ rest) ∧
    (∀ (t : Nat) (out : List Nat), loopCompletion (.done t out) = .at t (.ok out)) ∧
    (∀ w : Option Nat, w.getD DEFAULT_WAIT_OUTPUT_FINISH_SEC
      = w.getD 2) ∧
    DEFAULT_WAIT_OUTPUT_FINISH_SEC = 2 ∧ tickIntervalMilli = 100 := by
  refine ⟨fun _ _ _ _ _ => rfl, fun _ _ _ _ _ => rfl, ?_, ?_,
    fun _ _ => rfl, fun _ => rfl, rfl, rfl⟩
  · intro quiet r out t rest h
    simp [interactionLoop, h]
  · intro quiet r out t rest h
    simp [interactionLoop, h]

/-- Closed instance of claim C4: a quiet tick after a recorded read
breaks the loop with the accumulator. -/
theorem interaction_loop_reads_and_quiet_tick_witness :
    interactionLoop 2 ⟨some 3, [7]⟩ [.tick 100] = .done 100 [7] :=
  interaction_loop_reads_and_quiet_tick.2.2.1 2 3 [7] 100 [] (by decide)

/-- Claim C10: while `latest_read_at` is unset a tick never breaks the
loop, and a trace holding only ticks leaves the loop pending; hence for
a child that never writes, `pass_input_to_process` under any overall
deadline never yields a successful output — the request can only end
as an error (`Timeout` once the deadline fires). -/
theorem loop_never_done_without_read :
    (∀ (quiet : Nat) (st : LoopState) (t : Nat) (rest : List Event),
      st.latest_read_at = none →
      interactionLoop quiet st (.tick t :: rest)
        = interactionLoop quiet st rest) ∧
    (∀ (quiet : Nat) (st : LoopState) (events : List Event),
      st.latest_read_at = none → (∀ e ∈ events, e.isTick = true) →
      interactionLoop quiet st events = .pending st) ∧
    (∀ (regexNew : String → Except PMError (String → String))
        (name : String) (child : Child) (input : String) (sz : Nat) (a : Bool)
        (j tr : Option String) (rm ne : Bool) (w : Option Nat)
        (events : List Event) (dl : Nat),
      (∀ e ∈ events, e.isTick = true) →
      ∀ out : List Nat,
        withTimeout dl (pass_input_to_process regexNew name child input sz a j
          tr rm ne w events).2 ≠ .ok out) := by
  have key : ∀ (quiet : Nat) (st : LoopState) (events : List Event),
      st.latest_read_at = none → (∀ e ∈ events, e.isTick = true) →
      interactionLoop quiet st events = .pending st := by
    intro quiet st events h1 h2
    induction events with
    | nil => rfl
    | cons e rest ih =>
      cases e with
      | stdoutRead bytes t =>
        have := h2 (.stdoutRead bytes t) (List.mem_cons_self _ _)
        simp [Event.isTick] at this
      | stderrRead bytes t =>
        have := h2 (.stderrRead bytes t) (List.mem_cons_self _ _)
        simp [Event.isTick] at this
      | stdoutReadErr t =>
        have := h2 (.stdoutReadErr t) (List.mem_cons_self _ _)
        simp [Event.isTick] at this
      | stderrReadErr t =>
        have := h2 (.stderrReadErr t) (List.mem_cons_self _ _)
        simp [Event.isTick] at this
      | tick t =>
        have hrec := ih fun e he => h2 e (List.mem_cons_of_mem _ he)
        simp only [interactionLoop, h1]
        exact hrec
  refine ⟨?_, key, ?_⟩
  · intro quiet st t rest h1
    simp [interactionLoop, h1]
  · intro regexNew name child input sz a j tr rm ne w events dl hticks out
    have wt : ∀ (c : Completion), (∀ (t : Nat) (out0 : List Nat),
        c ≠ .at t (.ok out0)) → withTimeout dl c ≠ .ok out := by
      intro c hc
      cases c with
      | never st => simp [withTimeout]
      | «at» t r =>
        cases r with
        | ok out0 => exact absurd rfl (hc t out0)
        | error e =>
          simp only [withTimeout]
          split <;> simp
    apply wt
    intro t out0
    cases ha : arrange_input regexNew input a j tr rm with
    | error e => simp [pass_input_to_process, ha]
    | ok shaped =>
      simp only [pass_input_to_process, ha]
      cases hb : (ne && (strIsEmpty shaped || emptyInputIsMatch shaped)) with
      | true => simp [hb]
      | false =>
        cases hin : child.has_stdin <;> cases hout : child.has_stdout <;>
          cases herr : child.has_stderr <;>
          simp only [hb, Bool.not_false, Bool.not_true, Bool.false_eq_true,
            if_true, if_false] <;>
          first
          | (rw [key (w.getD DEFAULT_WAIT_OUTPUT_FINISH_SEC) ⟨none, []⟩
              events rfl hticks]
             simp [loopCompletion])
          | simp

/-- Closed instance of claim C10: a tick-only trace under a 30 s
deadline cannot produce a successful empty output. -/
theorem loop_never_done_without_read_witness :
    withTimeout 30000 (pass_input_to_process regexNewNone "jl"
      ⟨some 1, true, true, true⟩ "x" 4096 false none none false false none
      [.tick 0, .tick 100, .tick 200]).2 ≠ .ok [] :=
  loop_never_done_without_read.2.2 regexNewNone "jl" ⟨some 1, true, true, true⟩
    "x" 4096 false none none false false none [.tick 0, .tick 100, .tick 200]
    30000 (by decide) []

/-! ## Concrete fixtures for closed instances -/

/-- A command spec whose name (`"jl"`) differs from its executable
(`"julia"`), with every shaping option off and no per-command
timeouts. -/
def cmdFix : Cmd :=
  ⟨"jl", "julia", 4096, false, none, none, false, false, none, none⟩

/-- A child with pid 7 and all three pipes attached. -/
def childFix : Child := ⟨some 7, true, true, true⟩

/-- A running process supervising `childFix` under `cmdFix`. -/
def rpFix : RunningProcess := ⟨cmdFix, childFix⟩

/-- Claim C8: the health probe reports healthy exactly in the OS states
`Run`, `Idle`, `Sleep`, `Tracing`, unhealthy in every other state; and
when the OS snapshot holds no process for the child's pid, `run_cmd`
takes the spawn path (the child is not reused). -/
theorem health_probe_states :
    (∀ st : ProcessStatus, is_health_process st = true ↔
      (st = .Run ∨ st = .Idle ∨ st = .Sleep ∨ st = .Tracing)) ∧
    (∀ (regexNew : String → Except PMError (String → String))
        (cmd_table : Option (List (String × Cmd)))
        (table : List (String × RunningProcess))
        (os : Nat → Option ProcessStatus) (spawnOutcome : Option Child)
        (name input : String) (output_size : Option Nat) (events : List Event)
        (rp : RunningProcess) (pid : Nat),
      tableLookup table name = some rp → rp.child.id = some pid →
      os pid = none →
      runCmd regexNew cmd_table table os spawnOutcome name input output_size events
        = ((runCmdSpawnPath regexNew cmd_table table spawnOutcome name input
              output_size events).1,
           (runCmdSpawnPath regexNew cmd_table table spawnOutcome name input
              output_size events).2, [])) := by
  constructor
  · intro st
    cases st <;> simp [is_health_process]
  · intro regexNew cmd_table table os spawnOutcome name input output_size events
      rp pid h1 h2 h3
    simp [runCmd, h1, h2, h3]

/-- Closed instance of claim C8: an absent pid sends the request to the
spawn path. -/
theorem health_probe_states_witness :
    runCmd regexNewNone (some [("jl", cmdFix)]) [("jl", rpFix)]
      (fun _ => none) (some childFix) "jl" "x" none []
      = ((runCmdSpawnPath regexNewNone (some [("jl", cmdFix)]) [("jl", rpFix)]
            (some childFix) "jl" "x" none []).1,
         (runCmdSpawnPath regexNewNone (some [("jl", cmdFix)]) [("jl", rpFix)]
            (some childFix) "jl" "x" none []).2, []) :=
  health_probe_states.2 regexNewNone (some [("jl", cmdFix)]) [("jl", rpFix)]
    (fun _ => none) (some childFix) "jl" "x" none [] rpFix 7 rfl rfl rfl

/-- Claim C9: when the OS fails to spawn the child (`spawnOutcome = none`)
and the slot for `name` is absent, `run_cmd` reports the spawn error
(`IOError`) and returns the process table unchanged: no entry is
inserted for the requested name. -/
theorem spawn_failure_leaves_table
    (regexNew : String → Except PMError (String → String))
    (cmd_table : Option (List (String × Cmd)))
    (table : List (String × RunningProcess))
    (os : Nat → Option ProcessStatus) (name input : String)
    (output_size : Option Nat) (events : List Event) (c : Cmd)
    (hlook : tableLookup table name = none)
    (hcmd : get_cmd_from_table cmd_table name = .ok c) :
    runCmd regexNew cmd_table table os none name input output_size events
      = (.error .IOError, table, []) := by
  simp [runCmd, hlook, runCmdSpawnPath, spawn_process, hcmd]

/-- Closed instance of claim C9: a failed spawn on an absent slot
returns `IOError` and the empty table stays empty. -/
theorem spawn_failure_leaves_table_witness :
    runCmd regexNewNone (some [("jl", cmdFix)]) [] (fun _ => none) none
      "jl" "x" none [] = (.error .IOError, [], []) :=
  spawn_failure_leaves_table regexNewNone (some [("jl", cmdFix)]) []
    (fun _ => none) "jl" "x" none [] cmdFix rfl rfl

/-- Claim C1, evaluated at a failing input: with the command table
binding name `"jl"` to a spec whose executable is `"julia"` and an
empty process table, `run_cmd "jl"` spawns successfully, inserts the
child under the key `"julia"` (the executable field — line 137 of the
source), so the immediate re-borrow of the entry for `"jl"` fails with
`FailedToAddProcessTable`, and the resulting process table holds the
key `"julia"`, which is absent from the command table. -/
theorem insert_key_mismatch_bug :
    runCmd regexNewNone (some [("jl", cmdFix)]) [] (fun _ => none)
      (some childFix) "jl" "x" none []
      = (.error (.FailedToAddProcessTable "jl"),
         [("julia", ⟨cmdFix, childFix⟩)], []) ∧
    tableLookup [("jl", cmdFix)] "julia" = (none : Option Cmd) ∧
    tableLookup (runCmd regexNewNone (some [("jl", cmdFix)]) []
      (fun _ => none) (some childFix) "jl" "x" none []).2.1 "julia"
      = some (⟨cmdFix, childFix⟩ : RunningProcess) := by
  refine ⟨by decide, by decide, by decide⟩

/-- Claim C3: on the reuse path the request runs the child-interaction
routine under the overall deadline
`timeout_sec.unwrap_or(DEFAULT_CMD_TIMEOUT_SEC)` seconds with
`DEFAULT_CMD_TIMEOUT_SEC = 30`; when the deadline fires before the
interaction loop resolves — the loop still pending, or resolving only
after the deadline — `run_cmd` fails with `Timeout`, kills nothing and
returns the process table unchanged, the child still in it; and the
spawn path runs the same deadline-wrapped routine on the entry
re-borrowed after insertion. -/
theorem overall_deadline_timeout
    (regexNew : String → Except PMError (String → String))
    (cmd_table : Option (List (String × Cmd)))
    (table : List (String × RunningProcess))
    (os : Nat → Option ProcessStatus) (spawnOutcome : Option Child)
    (name input : String) (output_size : Option Nat) (events : List Event)
    (rp : RunningProcess) (pid : Nat) (st : ProcessStatus)
    (hlook : tableLookup table name = some rp)
    (hid : rp.child.id = some pid)
    (hos : os pid = some st)
    (hh : is_health_process st = true) :
    runCmd regexNew cmd_table table os spawnOutcome name input output_size events
      = (runInteraction regexNew name rp input output_size events, table, []) ∧
    runInteraction regexNew name rp input output_size events
      = withTimeout ((rp.running_cmd.timeout_sec.getD DEFAULT_CMD_TIMEOUT_SEC)
            * 1000)
          (pass_input_to_process regexNew name rp.child input
            (output_size.getD rp.running_cmd.output_size)
            rp.running_cmd.auto_trailing_newline
            rp.running_cmd.join_input_newline_with
            rp.running_cmd.truncate_line_regex
            rp.running_cmd.remove_empty_line
            rp.running_cmd.no_empty_input
            rp.running_cmd.wait_output_timeout_milli_sec
            events).2 ∧
    DEFAULT_CMD_TIMEOUT_SEC = 30 ∧
    (∀ ls : LoopState,
      (pass_input_to_process regexNew name rp.child input
        (output_size.getD rp.running_cmd.output_size)
        rp.running_cmd.auto_trailing_newline
        rp.running_cmd.join_input_newline_with
        rp.running_cmd.truncate_line_regex
        rp.running_cmd.remove_empty_line
        rp.running_cmd.no_empty_input
        rp.running_cmd.wait_output_timeout_milli_sec
        events).2 = .never ls →
      runCmd regexNew cmd_table table os spawnOutcome name input output_size events
        = (.error .Timeout, table, [])) ∧
    (∀ (t : Nat) (r : Except PMError (List Nat)),
      (pass_input_to_process regexNew name rp.child input
        (output_size.getD rp.running_cmd.output_size)
        rp.running_cmd.auto_trailing_newline
        rp.running_cmd.join_input_newline_with
        rp.running_cmd.truncate_line_regex
        rp.running_cmd.remove_empty_line
        rp.running_cmd.no_empty_input
        rp.running_cmd.wait_output_timeout_milli_sec
        events).2 = .at t r →
      (rp.running_cmd.timeout_sec.getD DEFAULT_CMD_TIMEOUT_SEC) * 1000 < t →
      runCmd regexNew cmd_table table os spawnOutcome name input output_size events
        = (.error .Timeout, table, [])) ∧
    (∀ (sp p : RunningProcess),
      spawn_process cmd_table spawnOutcome name = .ok sp →
      tableLookup (add_to_process_table table sp) name = some p →
      runCmdSpawnPath regexNew cmd_table table spawnOutcome name input output_size
          events
        = (runInteraction regexNew name p input output_size events,
           add_to_process_table table sp)) := by
  have hrun : runCmd regexNew cmd_table table os spawnOutcome name input output_size
      events
      = (runInteraction regexNew name rp input output_size events, table, []) := by
    simp [runCmd, hlook, hid, hos, hh]
  refine ⟨hrun, rfl, rfl, ?_, ?_, ?_⟩
  · intro ls h
    rw [hrun]
    have : runInteraction regexNew name rp input output_size events
        = .error .Timeout := by
      simp [runInteraction, h, withTimeout]
    rw [this]
  · intro t r h ht
    rw [hrun]
    have : runInteraction regexNew name rp input output_size events
        = .error .Timeout := by
      simp [runInteraction, h, withTimeout, ht]
    rw [this]
  · intro sp p h1 h2
    simp [runCmdSpawnPath, h1, h2]

/-- Closed instance of claim C3: a healthy child whose trace never
resolves the loop makes the request fail with `Timeout`, the table
unchanged and nothing killed. -/
theorem overall_deadline_timeout_witness :
    runCmd regexNewNone (some [("jl", cmdFix)]) [("jl", rpFix)]
      (fun _ => some .Run) (some childFix) "jl" "x" none []
      = (.error .Timeout, [("jl", rpFix)], []) :=
  (overall_deadline_timeout regexNewNone (some [("jl", cmdFix)])
    [("jl", rpFix)] (fun _ => some .Run) (some childFix) "jl" "x" none []
    rpFix 7 .Run rfl rfl rfl rfl).2.2.2.1 ⟨none, []⟩ (by decide)

end Dairi
